/-
Verification of the percorso Tauri backend (src/tauri/src-tauri/src/lib.rs)
against its natural-language specification.

Shallow embedding conventions:
  * Rust `serde_json::Value` is modelled by the inductive `Json`; the
    key-value store of the `tauri_plugin_store` plugin (an external
    collaborator) is modelled as an association list `StoreMap` with
    map semantics (`storeGet` / `storeSet` / `storeDelete` / keys).
  * `u32` values are modelled as `Nat`; the one place the code performs
    arithmetic on a `u32` (`increment_streak`) takes an explicit `% 2^32`.
  * Strings compared by Rust `String::cmp` are modelled as lists of
    code points compared lexicographically (byte order on UTF-8 agrees
    with code-point order); `to_lowercase` is modelled per-character.
  * Effects: each store command returns an `OpOut`, carrying the
    `Except`-result, the post-state, and the list of events emitted to
    the frontend.  Persist (`store.save()`) and event emission are
    external operations whose success is modelled by the `persistOk` /
    `emitOk` fields of the `World`.  `fs::write` / `fs::read_to_string`
    together with serde_json serialization are modelled value-level:
    a file holds the `Json` value written to it.
-/
import Mathlib

namespace Percorso

/-- Model of `serde_json::Value` (numbers collapsed to `Int`, which is
irrelevant to every claim below). -/
inductive Json where
  | null
  | bool (b : Bool)
  | num (n : Int)
  | str (s : String)
  | arr (elems : List Json)
  | obj (fields : List (String × Json))

/-! ## Directory lister (`list_directory_contents`, lib.rs 404-454) -/

/-- `DirectoryEntryInfo` from lib.rs 296-302; the name is kept as a list of
code points (`Char`) so that the byte-wise `String::cmp` of Rust is the
lexicographic comparison on the list. -/
structure DirectoryEntryInfo where
  name : List Char
  is_directory : Bool
  is_file : Bool
  full_path : Option (List Char)
deriving DecidableEq

/-- Model of Rust `name.to_lowercase()` followed by byte comparison: each
character is lowercased and taken to its code point. -/
def lowerKey (s : List Char) : List Nat :=
  s.map (fun c => c.toLower.toNat)

/-- Lexicographic comparison of code-point lists: the model of Rust
`String::cmp` on the lowercased names. -/
def natListCmp : List Nat → List Nat → Ordering
  | [], [] => .eq
  | [], _ :: _ => .lt
  | _ :: _, [] => .gt
  | a :: as, b :: bs =>
    if a < b then .lt
    else if b < a then .gt
    else natListCmp as bs

/-- The comparator passed to `sort_by` in lib.rs 445-451: directories first,
otherwise case-insensitive alphabetical. -/
def entryCmp (a b : DirectoryEntryInfo) : Ordering :=
  match a.is_directory, b.is_directory with
  | true, false => .lt
  | false, true => .gt
  | _, _ => natListCmp (lowerKey a.name) (lowerKey b.name)

/-- `le` form of `entryCmp` (`cmp a b ≠ Greater`), the order in which Rust
`sort_by` leaves the vector sorted. -/
def entryLe (a b : DirectoryEntryInfo) : Bool :=
  match entryCmp a b with
  | .gt => false
  | _ => true

/-- The sorting step of `list_directory_contents` (lib.rs 444-451) applied to
the collected entries (the filesystem enumeration that produces the input
list is an external effect). -/
def list_directory_contents_sort (l : List DirectoryEntryInfo) : List DirectoryEntryInfo :=
  l.mergeSort entryLe

theorem natListCmp_swap (s t : List Nat) : natListCmp t s = (natListCmp s t).swap := by
  induction s generalizing t with
  | nil => cases t <;> rfl
  | cons a as ih =>
    cases t with
    | nil => rfl
    | cons b bs =>
      simp only [natListCmp]
      rcases Nat.lt_trichotomy a b with h | h | h
      · simp [h, Nat.not_lt.mpr (Nat.le_of_lt h), Ordering.swap]
      · simp [h, Nat.lt_irrefl, ih bs]
      · simp [h, Nat.not_lt.mpr (Nat.le_of_lt h), Ordering.swap]

theorem natListCmp_le_trans {s t u : List Nat}
    (h1 : natListCmp s t ≠ .gt) (h2 : natListCmp t u ≠ .gt) :
    natListCmp s u ≠ .gt := by
  induction s generalizing t u with
  | nil => cases u <;> simp [natListCmp]
  | cons a as ih =>
    cases t with
    | nil => simp [natListCmp] at h1
    | cons b bs =>
      cases u with
      | nil => simp [natListCmp] at h2
      | cons c cs =>
        simp only [natListCmp] at h1 h2 ⊢
        rcases Nat.lt_trichotomy a b with hab | hab | hab
        · rcases Nat.lt_trichotomy b c with hbc | hbc | hbc
          · rw [if_pos (Nat.lt_trans hab hbc)]; simp
          · subst hbc; rw [if_pos hab]; simp
          · rw [if_neg (Nat.not_lt.mpr (Nat.le_of_lt hbc)), if_pos hbc] at h2
            exact absurd rfl h2
        · subst hab
          rw [if_neg (Nat.lt_irrefl a), if_neg (Nat.lt_irrefl a)] at h1
          rcases Nat.lt_trichotomy a c with hac | hac | hac
          · rw [if_pos hac]; simp
          · subst hac
            rw [if_neg (Nat.lt_irrefl a), if_neg (Nat.lt_irrefl a)] at h2 ⊢
            exact ih h1 h2
          · rw [if_neg (Nat.not_lt.mpr (Nat.le_of_lt hac)), if_pos hac] at h2
            exact absurd rfl h2
        · rw [if_neg (Nat.not_lt.mpr (Nat.le_of_lt hab)), if_pos hab] at h1
          exact absurd rfl h1

theorem entryLe_total (a b : DirectoryEntryInfo) : entryLe a b || entryLe b a := by
  unfold entryLe entryCmp
  cases ha : a.is_directory <;> cases hb : b.is_directory <;>
    simp only [Bool.or_eq_true]
  · rw [natListCmp_swap (lowerKey a.name) (lowerKey b.name)]
    cases natListCmp (lowerKey a.name) (lowerKey b.name) <;> simp [Ordering.swap]
  · trivial
  · trivial
  · rw [natListCmp_swap (lowerKey a.name) (lowerKey b.name)]
    cases natListCmp (lowerKey a.name) (lowerKey b.name) <;> simp [Ordering.swap]

theorem entryLe_iff (a b : DirectoryEntryInfo) :
    entryLe a b = true ↔ entryCmp a b ≠ .gt := by
  unfold entryLe
  cases entryCmp a b <;> simp

theorem entryLe_trans (a b c : DirectoryEntryInfo)
    (h1 : entryLe a b) (h2 : entryLe b c) : entryLe a c := by
  rw [entryLe_iff] at h1 h2 ⊢
  unfold entryCmp at h1 h2 ⊢
  cases ha : a.is_directory <;> cases hb : b.is_directory <;>
    cases hc : c.is_directory <;> simp only [ha, hb, hc] at h1 h2 ⊢
  · exact natListCmp_le_trans h1 h2
  · exact absurd rfl h2
  · exact absurd rfl h1
  · exact absurd rfl h1
  · simp
  · exact absurd rfl h2
  · simp
  · exact natListCmp_le_trans h1 h2

/-- The pairwise order the spec requires of directory listings: every
directory entry precedes every non-directory entry, and two entries in the
same group are in case-insensitive alphabetical order. -/
def specListingOrder (a b : DirectoryEntryInfo) : Prop :=
  (b.is_directory = true → a.is_directory = true) ∧
  (a.is_directory = b.is_directory →
    natListCmp (lowerKey a.name) (lowerKey b.name) ≠ .gt)

theorem entryLe_imp_spec {a b : DirectoryEntryInfo} (h : entryLe a b = true) :
    specListingOrder a b := by
  rw [entryLe_iff] at h
  unfold entryCmp at h
  constructor
  · intro hb
    cases ha : a.is_directory with
    | true => rfl
    | false =>
      rw [ha, hb] at h
      exact absurd rfl h
  · intro hab
    cases ha : a.is_directory with
    | false =>
      rw [ha] at hab
      rw [ha, ← hab] at h
      exact h
    | true =>
      rw [ha] at hab
      rw [ha, ← hab] at h
      exact h

/-- C2: for every successful `list_directory_contents` call, the returned
sequence is a permutation of the collected entries in which every entry with
`is_directory = true` precedes every entry with `is_directory = false`, and
within each group entries are ordered by case-insensitive lexicographic
comparison of their names. -/
theorem C2_listing_sorted (l : List DirectoryEntryInfo) :
    (list_directory_contents_sort l).Perm l ∧
    (list_directory_contents_sort l).Pairwise specListingOrder := by
  refine ⟨List.mergeSort_perm l entryLe, ?_⟩
  have hs : (l.mergeSort entryLe).Pairwise (fun a b => entryLe a b = true) :=
    List.sorted_mergeSort entryLe_trans entryLe_total l
  exact hs.imp (fun h => entryLe_imp_spec h)

/-! ## Preference store model (lib.rs 314-381, 456-584)

The `tauri_plugin_store` store is an external collaborator: we model it as
an association list with map semantics.  `World` carries the store, the
success of the next `store.save()` (`persistOk`), the success of event
emission (`emitOk`), and the filesystem used by import/export.  Each
command returns an `OpOut`: its `Except String` result, the post-state,
and the events emitted to the frontend. -/

abbrev StoreMap := List (String × Json)

/-- `store.get(key)` of the store plugin: first binding of the key. -/
def storeGet (s : StoreMap) (k : String) : Option Json :=
  match s with
  | [] => none
  | (k2, v) :: rest => if k2 = k then some v else storeGet rest k

/-- `store.has(key)`. -/
def storeHas (s : StoreMap) (k : String) : Bool :=
  (storeGet s k).isSome

/-- `store.set(key, value)`: replace the first binding of the key in place
if present, else append the new binding (map-insert semantics of the
plugin's underlying JSON map). -/
def storeSet : StoreMap → String → Json → StoreMap
  | [], k, v => [(k, v)]
  | (k2, v2) :: rest, k, v =>
    if k2 = k then (k, v) :: rest else (k2, v2) :: storeSet rest k v

/-- `store.delete(key)`. -/
def storeDelete (s : StoreMap) (k : String) : StoreMap :=
  s.filter (fun e => e.1 != k)

structure World where
  store : StoreMap
  persistOk : Bool
  emitOk : Bool
  files : List (String × Json)

structure OpOut (α : Type) where
  res : Except String α
  world : World
  events : List (String × Json)

/-- `save_store` (lib.rs 372-375): persisting the store to disk is an
external effect whose success is the `persistOk` field. -/
def save_store (w : World) : Except String Unit :=
  if w.persistOk then .ok () else .error "Failed to save store to disk"

/-- `emit_to_frontend` (lib.rs 378-381): returns the result together with
the list of events actually delivered. -/
def emit_to_frontend (w : World) (event : String) (payload : Json) :
    Except String Unit × List (String × Json) :=
  if w.emitOk then (.ok (), [(event, payload)])
  else (.error "Failed to emit event to frontend", [])

/-- `key.trim().is_empty()`: the key is empty or whitespace-only (a string
trims to the empty string exactly when every character is whitespace). -/
def keyIsBlank (k : String) : Bool :=
  k.data.all Char.isWhitespace

/-- `save_preference` (lib.rs 457-480). -/
def save_preference (w : World) (key : String) (value : Json) : OpOut Unit :=
  if keyIsBlank key then ⟨.error "Preference key cannot be empty", w, []⟩
  else
    let w1 := { w with store := storeSet w.store key value }
    match save_store w1 with
    | .error e => ⟨.error e, w1, []⟩
    | .ok () =>
      let payload := Json.obj [("key", Json.str key), ("value", value)]
      match emit_to_frontend w1 "preference-updated" payload with
      | (.error e, evs) => ⟨.error e, w1, evs⟩
      | (.ok (), evs) => ⟨.ok (), w1, evs⟩

/-- `save_all_preferences` (lib.rs 483-502): clear, then set every pair of
the given mapping, then persist, then emit. -/
def save_all_preferences (w : World) (preferences : StoreMap) : OpOut Unit :=
  let newStore := preferences.foldl (fun s e => storeSet s e.1 e.2) ([] : StoreMap)
  let w1 := { w with store := newStore }
  match save_store w1 with
  | .error e => ⟨.error e, w1, []⟩
  | .ok () =>
    match emit_to_frontend w1 "preferences-updated" (Json.obj preferences) with
    | (.error e, evs) => ⟨.error e, w1, evs⟩
    | (.ok (), evs) => ⟨.ok (), w1, evs⟩

/-- `get_preference` (lib.rs 505-515). -/
def get_preference (w : World) (key : String) : OpOut Json :=
  if keyIsBlank key then ⟨.error "Preference key cannot be empty", w, []⟩
  else ⟨.ok ((storeGet w.store key).getD Json.null), w, []⟩

/-- `delete_preference` (lib.rs 518-541). -/
def delete_preference (w : World) (key : String) : OpOut Unit :=
  if keyIsBlank key then ⟨.error "Preference key cannot be empty", w, []⟩
  else if !storeHas w.store key then
    ⟨.error "Preference with the given key does not exist", w, []⟩
  else
    let w1 := { w with store := storeDelete w.store key }
    match save_store w1 with
    | .error e => ⟨.error e, w1, []⟩
    | .ok () =>
      match emit_to_frontend w1 "preference-deleted" (Json.obj [("key", Json.str key)]) with
      | (.error e, evs) => ⟨.error e, w1, evs⟩
      | (.ok (), evs) => ⟨.ok (), w1, evs⟩

/-- The key/value mapping built by `get_all_preferences` (lib.rs 544-557):
iterate over `store.keys()`, reading each value back. -/
def get_all_preferences_map (s : StoreMap) : StoreMap :=
  (s.map Prod.fst).map (fun k => (k, (storeGet s k).getD Json.null))

/-- `get_all_preferences` (lib.rs 544-557). -/
def get_all_preferences (w : World) : OpOut Json :=
  ⟨.ok (Json.obj (get_all_preferences_map w.store)), w, []⟩

/-- `clear_all_preferences` (lib.rs 560-571). -/
def clear_all_preferences (w : World) : OpOut Unit :=
  let w1 := { w with store := ([] : StoreMap) }
  match save_store w1 with
  | .error e => ⟨.error e, w1, []⟩
  | .ok () =>
    match emit_to_frontend w1 "preferences-cleared" Json.null with
    | (.error e, evs) => ⟨.error e, w1, evs⟩
    | (.ok (), evs) => ⟨.ok (), w1, evs⟩

/-- `has_preference` (lib.rs 574-584). -/
def has_preference (w : World) (key : String) : OpOut Bool :=
  if keyIsBlank key then ⟨.error "Preference key cannot be empty", w, []⟩
  else ⟨.ok (storeHas w.store key), w, []⟩

/-- Model of `fs::write`: replace the file at `path` with the value `v`
(serde_json serialization of the value is modelled as the value itself). -/
def fileWrite (files : List (String × Json)) (path : String) (v : Json) :
    List (String × Json) :=
  (path, v) :: files.filter (fun e => e.1 != path)

/-- `export_preferences` (lib.rs 620-636): serialize the full mapping and
write it to the file. -/
def export_preferences (w : World) (file_path : String) : OpOut Unit :=
  if keyIsBlank file_path then ⟨.error "Export file path cannot be empty", w, []⟩
  else
    let prefs := Json.obj (get_all_preferences_map w.store)
    ⟨.ok (), { w with files := fileWrite w.files file_path prefs }, []⟩

/-- `import_preferences` (lib.rs 639-654): read the file, parse it as a
key/value mapping, then bulk-save it. -/
def import_preferences (w : World) (file_path : String) : OpOut Unit :=
  if keyIsBlank file_path then ⟨.error "Import file path cannot be empty", w, []⟩
  else
    match storeGet w.files file_path with
    | none => ⟨.error "Failed to read preferences file", w, []⟩
    | some (Json.obj m) => save_all_preferences w m
    | some _ => ⟨.error "Failed to parse JSON from file", w, []⟩

/-! ### Store lemmas -/

theorem storeGet_storeSet_self (s : StoreMap) (k : String) (v : Json) :
    storeGet (storeSet s k v) k = some v := by
  induction s with
  | nil => simp [storeSet, storeGet]
  | cons e rest ih =>
    obtain ⟨k2, v2⟩ := e
    by_cases he : k2 = k
    · simp [storeSet, storeGet, he]
    · simp [storeSet, storeGet, he, ih]

theorem storeGet_append_none (s : StoreMap) (k x : String) (v : Json)
    (hne : x ≠ k) (h : storeGet s x = none) : storeGet (s ++ [(k, v)]) x = none := by
  induction s with
  | nil => simp [storeGet, Ne.symm hne]
  | cons e rest ih =>
    obtain ⟨k2, v2⟩ := e
    by_cases he : k2 = x
    · simp [storeGet, he] at h
    · simp only [storeGet, he, List.cons_append, if_neg he] at h ⊢
      exact ih h

theorem storeSet_absent (s : StoreMap) (k : String) (v : Json)
    (h : storeHas s k = false) : storeSet s k v = s ++ [(k, v)] := by
  induction s with
  | nil => simp [storeSet]
  | cons e rest ih =>
    obtain ⟨k2, v2⟩ := e
    by_cases he : k2 = k
    · simp [storeHas, storeGet, he] at h
    · have h' : storeHas rest k = false := by
        simpa [storeHas, storeGet, he] using h
      simp [storeSet, he, ih h']

theorem foldl_storeSet_append (m : StoreMap) (acc : StoreMap)
    (hnd : (m.map Prod.fst).Nodup)
    (habs : ∀ e ∈ m, storeHas acc e.1 = false) :
    m.foldl (fun s e => storeSet s e.1 e.2) acc = acc ++ m := by
  induction m generalizing acc with
  | nil => simp
  | cons e rest ih =>
    obtain ⟨k, v⟩ := e
    simp only [List.foldl_cons]
    have hk : storeHas acc k = false := habs (k, v) (List.mem_cons_self _ _)
    rw [storeSet_absent acc k v hk]
    have hnd' : (rest.map Prod.fst).Nodup := (List.nodup_cons.mp (by simpa using hnd)).2
    have hknotin : k ∉ rest.map Prod.fst := (List.nodup_cons.mp (by simpa using hnd)).1
    have habs' : ∀ e ∈ rest, storeHas (acc ++ [(k, v)]) e.1 = false := by
      intro e2 he2
      have hne : e2.1 ≠ k := by
        intro hh
        exact hknotin (hh ▸ List.mem_map_of_mem Prod.fst he2)
      have h0 : storeGet acc e2.1 = none := by
        have := habs e2 (List.mem_cons_of_mem _ he2)
        rcases hs : storeGet acc e2.1 with _ | x
        · rfl
        · simp [storeHas, hs] at this
      simp [storeHas, storeGet_append_none acc k e2.1 v hne h0]
    rw [ih (acc ++ [(k, v)]) hnd' habs']
    simp

theorem get_all_preferences_map_id (s : StoreMap)
    (h : (s.map Prod.fst).Nodup) : get_all_preferences_map s = s := by
  induction s with
  | nil => rfl
  | cons e rest ih =>
    obtain ⟨k, v⟩ := e
    have hk : k ∉ rest.map Prod.fst := (List.nodup_cons.mp (by simpa using h)).1
    have hnd' : (rest.map Prod.fst).Nodup := (List.nodup_cons.mp (by simpa using h)).2
    simp only [get_all_preferences_map, List.map_cons, List.map_map]
    have hcongr : ∀ x ∈ rest,
        ((fun k2 => (k2, (storeGet ((k, v) :: rest) k2).getD Json.null)) ∘ Prod.fst) x
          = ((fun k2 => (k2, (storeGet rest k2).getD Json.null)) ∘ Prod.fst) x := by
      intro x hx
      have hxk : ¬ (k = x.1) := by
        intro hh
        exact hk (hh ▸ List.mem_map_of_mem Prod.fst hx)
      simp [storeGet, hxk]
    rw [List.map_congr_left hcongr]
    have htail := ih hnd'
    simp only [get_all_preferences_map, List.map_map] at htail
    rw [htail]
    simp [storeGet]

/-! ### Store claims -/

/-- C7: immediately after a successful `save_all_preferences M`,
`get_all_preferences` returns exactly the mapping `M`: the store is fully
replaced by `M` and no key of the previous state remains. -/
theorem C7_save_all_then_get_all (w : World) (M : StoreMap)
    (hnd : (M.map Prod.fst).Nodup)
    (hp : w.persistOk = true) (he : w.emitOk = true) :
    (save_all_preferences w M).res = .ok () ∧
    (get_all_preferences (save_all_preferences w M).world).res = .ok (Json.obj M) := by
  have hstore : M.foldl (fun s e => storeSet s e.1 e.2) ([] : StoreMap) = M := by
    simpa using foldl_storeSet_append M [] hnd (fun e _ => rfl)
  unfold save_all_preferences
  rw [hstore]
  refine ⟨?_, ?_⟩ <;>
    simp [save_store, hp, emit_to_frontend, he, get_all_preferences,
      get_all_preferences_map_id M hnd]

theorem C7_witness :
    (save_all_preferences ⟨[("old", Json.null)], true, true, []⟩
        [("a", Json.num 1), ("b", Json.str "x")]).res = .ok () ∧
    (get_all_preferences (save_all_preferences ⟨[("old", Json.null)], true, true, []⟩
        [("a", Json.num 1), ("b", Json.str "x")]).world).res
      = .ok (Json.obj [("a", Json.num 1), ("b", Json.str "x")]) :=
  C7_save_all_then_get_all ⟨[("old", Json.null)], true, true, []⟩
    [("a", Json.num 1), ("b", Json.str "x")] (by simp) rfl rfl

/-- C4: for each mutating preference operation, when persisting to the
backing store fails the operation returns an error and no notification
event is emitted; conversely, a notification event is emitted only when
persistence has succeeded. -/
theorem C4_persist_gates_notification (w : World) (k : String) (v : Json) (M : StoreMap) :
    (w.persistOk = false →
      ((save_preference w k v).res.isOk = false ∧ (save_preference w k v).events = []) ∧
      ((save_all_preferences w M).res.isOk = false ∧ (save_all_preferences w M).events = []) ∧
      ((delete_preference w k).res.isOk = false ∧ (delete_preference w k).events = []) ∧
      ((clear_all_preferences w).res.isOk = false ∧ (clear_all_preferences w).events = [])) ∧
    ((save_preference w k v).events ≠ [] → w.persistOk = true) ∧
    ((save_all_preferences w M).events ≠ [] → w.persistOk = true) ∧
    ((delete_preference w k).events ≠ [] → w.persistOk = true) ∧
    ((clear_all_preferences w).events ≠ [] → w.persistOk = true) := by
  unfold save_preference save_all_preferences delete_preference clear_all_preferences
    save_store emit_to_frontend
  cases hp : w.persistOk <;> cases he : w.emitOk <;>
    cases hb : keyIsBlank k <;> cases hh : storeHas w.store k <;>
    simp [hp, he, hb, hh, Except.isOk, Except.toBool]

theorem C4_witness :
    ((save_preference ⟨[("a", Json.null)], false, true, []⟩ "lang" Json.null).res.isOk = false ∧
      (save_preference ⟨[("a", Json.null)], false, true, []⟩ "lang" Json.null).events = []) :=
  ((C4_persist_gates_notification ⟨[("a", Json.null)], false, true, []⟩
    "lang" Json.null []).1 rfl).1

/-- C3 as stated is false: `save_all_preferences` performs no key
validation, so a mapping containing a whitespace-only key is accepted and
the key is written to the store instead of being rejected. -/
theorem C3_counterexample :
    keyIsBlank " " = true ∧
    (save_all_preferences ⟨[("a", Json.null)], true, true, []⟩ [(" ", Json.str "x")]).res
      = .ok () ∧
    storeGet (save_all_preferences ⟨[("a", Json.null)], true, true, []⟩
        [(" ", Json.str "x")]).world.store " "
      = some (Json.str "x") := by
  refine ⟨by decide, rfl, rfl⟩

/-- C3 amended: `save_preference`, `get_preference`, `delete_preference`
and `has_preference` reject an empty or whitespace-only key with a
validation error, leaving the store untouched and emitting nothing, but
`save_all_preferences` performs no key validation on the keys of its
mapping (an otherwise successful call succeeds no matter what keys the
mapping contains). -/
theorem C3_amended (w : World) (k : String) (v : Json) (M : StoreMap)
    (hb : keyIsBlank k = true) :
    (save_preference w k v).res = .error "Preference key cannot be empty" ∧
    (save_preference w k v).world = w ∧ (save_preference w k v).events = [] ∧
    (get_preference w k).res = .error "Preference key cannot be empty" ∧
    (get_preference w k).world = w ∧
    (delete_preference w k).res = .error "Preference key cannot be empty" ∧
    (delete_preference w k).world = w ∧ (delete_preference w k).events = [] ∧
    (has_preference w k).res = .error "Preference key cannot be empty" ∧
    (has_preference w k).world = w ∧
    (w.persistOk = true → w.emitOk = true → (save_all_preferences w M).res = .ok ()) := by
  refine ⟨?_, ?_, ?_, ?_, ?_, ?_, ?_, ?_, ?_, ?_, ?_⟩
  all_goals
    first
      | (intro hp he
         unfold save_all_preferences
         simp [save_store, hp, emit_to_frontend, he])
      | (simp [save_preference, get_preference, delete_preference, has_preference, hb])

theorem C3_amended_witness :
    keyIsBlank " " = true ∧
    (save_preference ⟨[], true, true, []⟩ " " Json.null).res
      = .error "Preference key cannot be empty" ∧
    (save_all_preferences ⟨[], true, true, []⟩ [(" ", Json.null)]).res = .ok () :=
  ⟨by decide,
    (C3_amended ⟨[], true, true, []⟩ " " Json.null [(" ", Json.null)] (by decide)).1,
    (C3_amended ⟨[], true, true, []⟩ " " Json.null
      [(" ", Json.null)] (by decide)).2.2.2.2.2.2.2.2.2.2 rfl rfl⟩

theorem storeGet_storeDelete_self (s : StoreMap) (k : String) :
    storeGet (storeDelete s k) k = none := by
  induction s with
  | nil => rfl
  | cons e rest ih =>
    obtain ⟨k2, v2⟩ := e
    unfold storeDelete at ih ⊢
    by_cases he : k2 = k
    · simpa [List.filter_cons, he] using ih
    · simpa [List.filter_cons, bne, he, storeGet] using ih

/-- C10: when persistence succeeds but the notification emission fails,
each mutating preference operation (`save_preference`,
`save_all_preferences`, `delete_preference`, `clear_all_preferences`)
returns an error to the caller even though the store mutation has already
been applied and persisted; an error result does not imply that the store
is unchanged. -/
theorem C10_error_despite_persisted (w : World) (k : String) (v : Json) (M : StoreMap)
    (hp : w.persistOk = true) (he : w.emitOk = false) :
    (keyIsBlank k = false →
      (save_preference w k v).res.isOk = false ∧
      storeGet (save_preference w k v).world.store k = some v) ∧
    ((M.map Prod.fst).Nodup →
      (save_all_preferences w M).res.isOk = false ∧
      (save_all_preferences w M).world.store = M) ∧
    (keyIsBlank k = false → storeHas w.store k = true →
      (delete_preference w k).res.isOk = false ∧
      storeGet (delete_preference w k).world.store k = none) ∧
    ((clear_all_preferences w).res.isOk = false ∧
      (clear_all_preferences w).world.store = []) := by
  refine ⟨?_, ?_, ?_, ?_⟩
  · intro hb
    unfold save_preference
    simp [hb, save_store, hp, emit_to_frontend, he, Except.isOk, Except.toBool,
      storeGet_storeSet_self]
  · intro hnd
    have hfold : M.foldl (fun s e => storeSet s e.1 e.2) ([] : StoreMap) = M := by
      simpa using foldl_storeSet_append M [] hnd (fun e _ => rfl)
    unfold save_all_preferences
    rw [hfold]
    simp [save_store, hp, emit_to_frontend, he, Except.isOk, Except.toBool]
  · intro hb hh
    unfold delete_preference
    simp [hb, hh, save_store, hp, emit_to_frontend, he, Except.isOk, Except.toBool,
      storeGet_storeDelete_self]
  · unfold clear_all_preferences
    simp [save_store, hp, emit_to_frontend, he, Except.isOk, Except.toBool]

theorem C10_witness :
    ((save_preference ⟨[("lang", Json.str "en")], true, false, []⟩ "lang"
        (Json.str "it")).res.isOk = false ∧
      storeGet (save_preference ⟨[("lang", Json.str "en")], true, false, []⟩ "lang"
        (Json.str "it")).world.store "lang" = some (Json.str "it")) ∧
    ((save_all_preferences ⟨[("lang", Json.str "en")], true, false, []⟩
        [("a", Json.num 1)]).res.isOk = false ∧
      (save_all_preferences ⟨[("lang", Json.str "en")], true, false, []⟩
        [("a", Json.num 1)]).world.store = [("a", Json.num 1)]) ∧
    ((delete_preference ⟨[("lang", Json.str "en")], true, false, []⟩
        "lang").res.isOk = false ∧
      storeGet (delete_preference ⟨[("lang", Json.str "en")], true, false, []⟩
        "lang").world.store "lang" = none) ∧
    ((clear_all_preferences ⟨[("lang", Json.str "en")], true, false, []⟩).res.isOk
        = false ∧
      (clear_all_preferences ⟨[("lang", Json.str "en")], true, false, []⟩).world.store
        = []) :=
  ⟨(C10_error_despite_persisted ⟨[("lang", Json.str "en")], true, false, []⟩ "lang"
      (Json.str "it") [("a", Json.num 1)] rfl rfl).1 (by decide),
    (C10_error_despite_persisted ⟨[("lang", Json.str "en")], true, false, []⟩ "lang"
      (Json.str "it") [("a", Json.num 1)] rfl rfl).2.1 (by simp),
    (C10_error_despite_persisted ⟨[("lang", Json.str "en")], true, false, []⟩ "lang"
      (Json.str "it") [("a", Json.num 1)] rfl rfl).2.2.1 (by decide) rfl,
    (C10_error_despite_persisted ⟨[("lang", Json.str "en")], true, false, []⟩ "lang"
      (Json.str "it") [("a", Json.num 1)] rfl rfl).2.2.2⟩

/-- C8: a successful `export_preferences path` followed by
`import_preferences path` leaves the preference store holding exactly the
same key/value mapping as before the export. -/
theorem C8_export_import_roundtrip (w : World) (path : String)
    (hb : keyIsBlank path = false) (hnd : (w.store.map Prod.fst).Nodup)
    (hp : w.persistOk = true) (he : w.emitOk = true) :
    (export_preferences w path).res = .ok () ∧
    (import_preferences (export_preferences w path).world path).res = .ok () ∧
    (import_preferences (export_preferences w path).world path).world.store = w.store := by
  have hmap := get_all_preferences_map_id w.store hnd
  have hfold : w.store.foldl (fun s e => storeSet s e.1 e.2) ([] : StoreMap) = w.store := by
    simpa using foldl_storeSet_append w.store [] hnd (fun e _ => rfl)
  refine ⟨?_, ?_, ?_⟩ <;>
    simp [export_preferences, import_preferences, hb, hmap, fileWrite, storeGet,
      save_all_preferences, hfold, save_store, hp, he, emit_to_frontend]

theorem C8_witness :
    (export_preferences ⟨[("a", Json.num 1)], true, true, []⟩ "out.json").res = .ok () ∧
    (import_preferences (export_preferences ⟨[("a", Json.num 1)], true, true, []⟩
        "out.json").world "out.json").res = .ok () ∧
    (import_preferences (export_preferences ⟨[("a", Json.num 1)], true, true, []⟩
        "out.json").world "out.json").world.store = [("a", Json.num 1)] :=
  C8_export_import_roundtrip ⟨[("a", Json.num 1)], true, true, []⟩ "out.json"
    (by decide) (by simp) rfl rfl

/-! ## Profile/progress facade (lib.rs 12-285)

`update_progress` and `increment_streak` read the stored progress (absent
or unparseable values fall back to the default), compute the new progress
value, and hand it to `save_preference`.  The functions below compute the
progress value written by each call; `stored` is the parse result of the
stored value (`none` models both an absent key and an unparseable value,
which the code treats identically). -/

/-- `Progress` (lib.rs 23-29); `u32` fields modelled as `Nat`. -/
structure Progress where
  current_streak : Nat
  longest_streak : Nat
  daily_goal : Nat

/-- The default progress used whenever the stored value is absent or fails
to deserialize (lib.rs 112-122 et al.). -/
def default_progress : Progress :=
  ⟨0, 0, 10⟩

/-- The progress value written by `update_progress` (lib.rs 150-197). -/
def update_progress (stored : Option Progress)
    (current_streak longest_streak daily_goal : Option Nat) : Progress :=
  let p0 := stored.getD default_progress
  let p1 := match current_streak with
    | some current =>
      { p0 with
        current_streak := current,
        longest_streak := if current > p0.longest_streak then current else p0.longest_streak }
    | none => p0
  let p2 := match longest_streak with
    | some longest => { p1 with longest_streak := longest }
    | none => p1
  match daily_goal with
  | some goal => { p2 with daily_goal := goal }
  | none => p2

/-- The progress value written by `increment_streak` (lib.rs 215-252);
the `u32` increment wraps modulo `2^32`. -/
def increment_streak (stored : Option Progress) : Progress :=
  let p0 := stored.getD default_progress
  let current := (p0.current_streak + 1) % 2 ^ 32
  { p0 with
    current_streak := current,
    longest_streak := if current > p0.longest_streak then current else p0.longest_streak }

/-- C1 as stated is false: a call to `update_progress` that supplies both
`current_streak` and a smaller explicit `longest_streak` writes a progress
value with `longest_streak < current_streak` (the explicit argument is
applied after the clamp, unconditionally). -/
theorem C1_counterexample :
    (update_progress none (some 5) (some 3) none).longest_streak
      < (update_progress none (some 5) (some 3) none).current_streak := by
  decide

/-- C1 amended: `increment_streak` always writes `longest_streak ≥
current_streak`; `update_progress` writes `longest_streak ≥ current_streak`
when the `longest_streak` argument is not supplied and `current_streak` is,
when any supplied `longest_streak` is at least the `current_streak` value
being written, and when neither streak argument is supplied and the stored
(or default) progress already satisfies the invariant.  An explicitly
supplied `longest_streak` smaller than the written `current_streak` is
stored as-is, violating the invariant. -/
theorem C1_amended :
    (∀ stored, (increment_streak stored).longest_streak
        ≥ (increment_streak stored).current_streak) ∧
    (∀ stored current goal,
      (update_progress stored (some current) none goal).longest_streak
        ≥ (update_progress stored (some current) none goal).current_streak) ∧
    (∀ stored current longest goal,
      longest ≥ (current.getD (stored.getD default_progress).current_streak) →
      (update_progress stored current (some longest) goal).longest_streak
        ≥ (update_progress stored current (some longest) goal).current_streak) ∧
    (∀ stored goal,
      (stored.getD default_progress).longest_streak
          ≥ (stored.getD default_progress).current_streak →
      (update_progress stored none none goal).longest_streak
        ≥ (update_progress stored none none goal).current_streak) := by
  refine ⟨?_, ?_, ?_, ?_⟩
  · intro stored
    unfold increment_streak
    by_cases h : (stored.getD default_progress).current_streak + 1 > 2 ^ 32
    all_goals
      simp only []
      split <;> omega
  · intro stored current goal
    unfold update_progress
    cases goal <;> simp only [] <;> split <;> omega
  · intro stored current longest goal h
    unfold update_progress
    cases current <;> cases goal <;> simp_all
  · intro stored goal h
    unfold update_progress
    cases goal <;> simpa using h

theorem C1_amended_witness :
    (increment_streak (some ⟨3, 3, 10⟩)).longest_streak
      ≥ (increment_streak (some ⟨3, 3, 10⟩)).current_streak ∧
    (update_progress (some ⟨2, 4, 10⟩) (some 7) none none).longest_streak
      ≥ (update_progress (some ⟨2, 4, 10⟩) (some 7) none none).current_streak ∧
    (update_progress none (some 5) (some 9) none).longest_streak
      ≥ (update_progress none (some 5) (some 9) none).current_streak ∧
    (update_progress (some ⟨1, 2, 10⟩) none none (some 20)).longest_streak
      ≥ (update_progress (some ⟨1, 2, 10⟩) none none (some 20)).current_streak :=
  ⟨C1_amended.1 (some ⟨3, 3, 10⟩),
    C1_amended.2.1 (some ⟨2, 4, 10⟩) 7 none,
    C1_amended.2.2.1 none (some 5) 9 none (by decide),
    C1_amended.2.2.2 (some ⟨1, 2, 10⟩) (some 20) (by decide)⟩

/-- `ProfileUser` (lib.rs 13-20); `chrono::DateTime<Utc>` modelled as an
integer timestamp. -/
structure ProfileUser where
  full_name : String
  username : String
  email : String
  created_at : Int

/-- `AppMeta` (lib.rs 32-38). -/
structure AppMeta where
  version : String
  platform : String
  last_opened : Int

/-- `ProfileData` (lib.rs 41-47). -/
structure ProfileData where
  profile_user : ProfileUser
  progress : Progress
  app_meta : AppMeta

/-- `get_platform_name` (lib.rs 255-267); the build target is fixed per
binary, modelled here as the linux target. -/
def get_platform_name : String :=
  "tauri-linux"

/-- The default `AppMeta` used whenever the stored value is absent or fails
to deserialize (lib.rs 126-140). -/
def default_app_meta (now : Int) : AppMeta :=
  ⟨"1.0.0", get_platform_name, now⟩

/-- The defaulting used by `get_profile_data` for progress and app-meta:
an absent (`none`) or unparseable stored value is replaced by the default. -/
def defaulted {α : Type} (parse : Json → Option α) (dflt : α) : Option Json → α
  | some v => (parse v).getD dflt
  | none => dflt

/-- `get_profile_data` (lib.rs 98-147).  serde deserialization of the three
stored values is an external step, passed in as the three `parse` functions
(`none` models a failed parse); `now` models `Utc::now()`. -/
def get_profile_data
    (parseProfileUser : Json → Option ProfileUser)
    (parseProgress : Json → Option Progress)
    (parseAppMeta : Json → Option AppMeta)
    (now : Int) (st : StoreMap) : Except String ProfileData :=
  match storeGet st "profileUser" with
  | none => .error "Profile user data not found"
  | some profileValue =>
    match parseProfileUser profileValue with
    | none => .error "Failed to deserialize profile user"
    | some profileUser =>
      let progress := match storeGet st "progress" with
        | some progressValue => (parseProgress progressValue).getD default_progress
        | none => default_progress
      let appMeta := match storeGet st "appMeta" with
        | some metaValue => (parseAppMeta metaValue).getD (default_app_meta now)
        | none => default_app_meta now
      .ok ⟨profileUser, progress, appMeta⟩

/-- C6 as stated is false: with the `profileUser` key absent from the
store, `get_profile_data` returns a hard error instead of substituting
defaults; only progress and app-meta are defaulted. -/
theorem C6_counterexample :
    get_profile_data (fun _ => none) (fun _ => none) (fun _ => none) 0 []
      = .error "Profile user data not found" := by
  rfl

/-- C6 amended: `get_profile_data` aggregates profile, progress and
app-meta, substituting the documented defaults (streak 0/0, dailyGoal 10,
version 1.0.0, platform name, lastOpened now) for a progress or app-meta
value that is absent or fails to parse; an absent or unparseable
`profileUser`, however, is a hard error, not defaulted. -/
theorem C6_amended (parseProfileUser : Json → Option ProfileUser)
    (parseProgress : Json → Option Progress) (parseAppMeta : Json → Option AppMeta)
    (now : Int) (st : StoreMap) :
    (storeGet st "profileUser" = none →
      get_profile_data parseProfileUser parseProgress parseAppMeta now st
        = .error "Profile user data not found") ∧
    (∀ v, storeGet st "profileUser" = some v → parseProfileUser v = none →
      get_profile_data parseProfileUser parseProgress parseAppMeta now st
        = .error "Failed to deserialize profile user") ∧
    (∀ v pu, storeGet st "profileUser" = some v → parseProfileUser v = some pu →
      get_profile_data parseProfileUser parseProgress parseAppMeta now st
        = .ok ⟨pu,
            defaulted parseProgress default_progress (storeGet st "progress"),
            defaulted parseAppMeta (default_app_meta now) (storeGet st "appMeta")⟩) := by
  refine ⟨?_, ?_, ?_⟩
  · intro h
    unfold get_profile_data
    rw [h]
  · intro v hv hp
    unfold get_profile_data
    simp only [hv, hp]
  · intro v pu hv hp
    unfold get_profile_data
    simp only [hv, hp]
    unfold defaulted
    cases storeGet st "progress" <;> cases storeGet st "appMeta" <;> rfl

theorem C6_amended_witness :
    get_profile_data (fun _ => some ⟨"Angelo", "angelo", "a@b.c", 7⟩)
        (fun _ => none) (fun _ => none) 42 [("profileUser", Json.null)]
      = .ok ⟨⟨"Angelo", "angelo", "a@b.c", 7⟩, default_progress, default_app_meta 42⟩ :=
  (C6_amended (fun _ => some ⟨"Angelo", "angelo", "a@b.c", 7⟩)
      (fun _ => none) (fun _ => none) 42 [("profileUser", Json.null)]).2.2
    Json.null ⟨"Angelo", "angelo", "a@b.c", 7⟩ rfl rfl

/-! ## Vocabulary frontmatter extractor (lib.rs 287-293, 346-363, 383-402)

`file_content.splitn(3, "---")` splits the content at the first two
non-overlapping occurrences of the delimiter `---`, yielding at most three
parts.  YAML parsing of the frontmatter (serde_yaml) is an external step,
passed in as `parseYaml`; the custom field deserializer
`deserialize_italian_word` is modelled on a `Yaml` value type. -/

/-- Whether the content starts with the delimiter `---`. -/
def startsWithDelim : List Char → Bool
  | '-' :: '-' :: '-' :: _ => true
  | _ => false

/-- Locate the leftmost occurrence of `---`: returns the part before the
match and the remainder after it. -/
def findSplit : List Char → Option (List Char × List Char)
  | [] => none
  | c :: cs =>
    if startsWithDelim (c :: cs) then some ([], (c :: cs).drop 3)
    else
      match findSplit cs with
      | none => none
      | some (a, b) => some (c :: a, b)

theorem findSplit_length {s a b : List Char} (h : findSplit s = some (a, b)) :
    b.length < s.length := by
  induction s generalizing a b with
  | nil => simp [findSplit] at h
  | cons c cs ih =>
    unfold findSplit at h
    by_cases hd : startsWithDelim (c :: cs) = true
    · rw [if_pos hd] at h
      injection h with h1
      have hb : b = (c :: cs).drop 3 := by
        have := congrArg Prod.snd h1
        simpa using this.symm
      subst hb
      simp only [List.length_drop, List.length_cons]
      omega
    · rw [if_neg hd] at h
      cases hfs : findSplit cs with
      | none => rw [hfs] at h; cases h
      | some p =>
        obtain ⟨a2, b2⟩ := p
        rw [hfs] at h
        injection h with h1
        have hb : b = b2 := by
          have := congrArg Prod.snd h1
          simpa using this.symm
        subst hb
        exact Nat.lt_trans (ih hfs) (Nat.lt_succ_self cs.length)

/-- The number of non-overlapping occurrences of the delimiter `---` in the
content (leftmost-first, exactly as `splitn` consumes them). -/
def countOcc (s : List Char) : Nat :=
  match h : findSplit s with
  | none => 0
  | some p => 1 + countOcc p.2
termination_by s.length
decreasing_by
  exact findSplit_length h

theorem countOcc_none {s : List Char} (h : findSplit s = none) : countOcc s = 0 := by
  rw [countOcc]
  split <;> simp_all

theorem countOcc_some {s : List Char} {p : List Char × List Char}
    (h : findSplit s = some p) : countOcc s = 1 + countOcc p.2 := by
  rw [countOcc]
  split <;> simp_all

/-- `file_content.splitn(3, "---")` (lib.rs 390): at most three parts, the
third keeping any further delimiters. -/
def splitn3 (s : List Char) : List (List Char) :=
  match findSplit s with
  | none => [s]
  | some (a, r) =>
    match findSplit r with
    | none => [a, r]
    | some (b, r2) => [a, b, r2]

theorem splitn3_short_iff (s : List Char) :
    (splitn3 s).length < 3 ↔ countOcc s < 2 := by
  unfold splitn3
  cases h1 : findSplit s with
  | none => simp [countOcc_none h1]
  | some p =>
    obtain ⟨a, r⟩ := p
    rw [countOcc_some h1]
    cases h2 : findSplit r with
    | none => simp [h2, countOcc_none h2]
    | some q =>
      obtain ⟨b, r2⟩ := q
      rw [countOcc_some h2]
      simp [h2]
      omega

/-- `VocabularyEntryHeader` (lib.rs 288-293). -/
structure VocabularyEntryHeader where
  Italian : String
  English : List String

/-- Model of `serde_yaml::Value` as seen by `deserialize_italian_word`:
`other` stands for every constructor besides strings and sequences (null,
bool, number, mapping, tagged), all of which the deserializer rejects
alike. -/
inductive Yaml where
  | str (s : String)
  | seq (elems : List Yaml)
  | other

/-- `deserialize_italian_word` (lib.rs 346-363): a string is taken as-is, a
sequence contributes its first element provided it is a string, anything
else is an error. -/
def deserialize_italian_word : Yaml → Except String String
  | .str italian_word => .ok italian_word
  | .seq word_sequence =>
    match word_sequence.head? with
    | some (.str first_word) => .ok first_word
    | _ => .error "Expected a list of strings or single string in Italian field"
  | .other => .error "Invalid type for Italian field"

/-- `extract_vocabulary_fields` (lib.rs 385-402): split the content on
`---`, fail when fewer than three parts result, else parse the middle part
as YAML. -/
def extract_vocabulary_fields
    (parseYaml : List Char → Except String VocabularyEntryHeader)
    (content : List Char) : Except String VocabularyEntryHeader :=
  match splitn3 content with
  | _ :: yamlPart :: _ :: _ =>
    match parseYaml yamlPart with
    | .ok header => .ok header
    | .error e => .error ("Failed to parse YAML frontmatter: " ++ e)
  | _ => .error "Invalid format: YAML frontmatter delimited by --- not found"

/-- C5: `extract_vocabulary_fields` fails with the format error whenever
the content contains fewer than two occurrences of the delimiter `---`;
when the Italian field of the frontmatter is a list, the word returned is
the list's first element, while an empty list, or a list whose first
element is not a string, is a parse error. -/
theorem C5_frontmatter
    (parseYaml : List Char → Except String VocabularyEntryHeader)
    (content : List Char) :
    (countOcc content < 2 →
      extract_vocabulary_fields parseYaml content
        = .error "Invalid format: YAML frontmatter delimited by --- not found") ∧
    (∀ w rest, deserialize_italian_word (.seq (.str w :: rest)) = .ok w) ∧
    deserialize_italian_word (.seq [])
      = .error "Expected a list of strings or single string in Italian field" ∧
    (∀ v rest, (∀ s2, v ≠ Yaml.str s2) →
      deserialize_italian_word (.seq (v :: rest))
        = .error "Expected a list of strings or single string in Italian field") := by
  refine ⟨?_, ?_, rfl, ?_⟩
  · intro h
    have hlen : (splitn3 content).length < 3 := (splitn3_short_iff content).mpr h
    unfold extract_vocabulary_fields
    cases hs : splitn3 content with
    | nil => rfl
    | cons x t1 =>
      cases t1 with
      | nil => rfl
      | cons y t2 =>
        cases t2 with
        | nil => rfl
        | cons z t3 =>
          rw [hs] at hlen
          simp only [List.length_cons] at hlen
          omega
  · intro w rest
    rfl
  · intro v rest hv
    cases v with
    | str s2 => exact absurd rfl (hv s2)
    | seq l => rfl
    | other => rfl

theorem C5_witness :
    countOcc ("word: casa").data < 2 ∧
    extract_vocabulary_fields (fun _ => .error "not reached") ("word: casa").data
      = .error "Invalid format: YAML frontmatter delimited by --- not found" ∧
    deserialize_italian_word (.seq (.str "casa" :: [Yaml.str "house-alt"])) = .ok "casa" ∧
    deserialize_italian_word (.seq (Yaml.other :: []))
      = .error "Expected a list of strings or single string in Italian field" := by
  have h0 : findSplit ("word: casa").data = none := by rfl
  have hco : countOcc ("word: casa").data < 2 := by
    rw [countOcc_none h0]
    decide
  exact ⟨hco,
    (C5_frontmatter (fun _ => .error "not reached") ("word: casa").data).1 hco,
    (C5_frontmatter (fun _ => .error "not reached") ("word: casa").data).2.1
      "casa" [Yaml.str "house-alt"],
    (C5_frontmatter (fun _ => .error "not reached") ("word: casa").data).2.2.2
      Yaml.other [] (fun s2 h => by cases h)⟩

/-! ## Random file picker (spec section 4.3) -/

/-- Modelled from the spec: the legacy `random_file` command (spec section
4.3 and the `listDir`/`randomFile` entries of the external interface) is
missing from the source under src.  Following the spec's words, it filters
the listed directory entries to files only, fails with an EmptyDirectory
error when zero files remain after filtering, and otherwise selects the
element of the file list indexed by a draw `r` of the process-wide random
source (uniform selection is `r % files.length`). -/
def random_file (entries : List DirectoryEntryInfo) (r : Nat) :
    Except String DirectoryEntryInfo :=
  let files := entries.filter (fun e => e.is_file)
  if hne : files = [] then .error "EmptyDirectory"
  else .ok (files.get ⟨r % files.length, Nat.mod_lt r (List.length_pos.mpr hne)⟩)

/-- C9: `random_file` fails with EmptyDirectory exactly when zero files
remain after filtering; every successful result is a file of the listing;
and each of the files is the selected one for some draw of the random
source (the draw `i` selects the i-th file). -/
theorem C9_random_file (entries : List DirectoryEntryInfo) (r : Nat) :
    (random_file entries r = .error "EmptyDirectory" ↔
      entries.filter (fun e => e.is_file) = []) ∧
    (∀ f, random_file entries r = .ok f → f ∈ entries ∧ f.is_file = true) ∧
    (∀ i (h : i < (entries.filter (fun e => e.is_file)).length),
      random_file entries i = .ok ((entries.filter (fun e => e.is_file)).get ⟨i, h⟩)) := by
  refine ⟨?_, ?_, ?_⟩
  · unfold random_file
    by_cases hne : entries.filter (fun e => e.is_file) = []
    · simp [hne]
    · simp [hne]
  · intro f hf
    unfold random_file at hf
    by_cases hne : entries.filter (fun e => e.is_file) = []
    · simp [hne] at hf
    · simp only [hne, dite_false] at hf
      injection hf with hf1
      have hmem : f ∈ entries.filter (fun e => e.is_file) := by
        rw [← hf1]
        exact List.get_mem _ _ _
      have := List.mem_filter.mp hmem
      exact ⟨this.1, this.2⟩
  · intro i h
    have hne : entries.filter (fun e => e.is_file) ≠ [] := by
      intro hh
      rw [hh] at h
      simp at h
    unfold random_file
    simp only [hne, dite_false]
    have hmod : i % (entries.filter (fun e => e.is_file)).length = i :=
      Nat.mod_eq_of_lt h
    simp [hmod]

/-- Sample entries used by concrete instantiations. -/
def sampleDir : DirectoryEntryInfo :=
  ⟨['d'], true, false, none⟩

def sampleFile : DirectoryEntryInfo :=
  ⟨['f'], false, true, none⟩

theorem C9_witness :
    random_file [sampleDir, sampleFile] 0 = .ok sampleFile ∧
    (sampleFile ∈ [sampleDir, sampleFile] ∧ sampleFile.is_file = true) ∧
    random_file [sampleDir] 7 = .error "EmptyDirectory" := by
  have h1 : (0 : Nat) < ([sampleDir, sampleFile].filter (fun e => e.is_file)).length := by
    simp [sampleDir, sampleFile]
  have hsel := (C9_random_file [sampleDir, sampleFile] 0).2.2 0 h1
  have hget : ([sampleDir, sampleFile].filter (fun e => e.is_file)).get ⟨0, h1⟩
      = sampleFile := by
    simp [sampleDir, sampleFile]
  rw [hget] at hsel
  refine ⟨hsel, (C9_random_file [sampleDir, sampleFile] 0).2.1 sampleFile hsel, ?_⟩
  exact (C9_random_file [sampleDir] 7).1.mpr (by simp [sampleDir])

theorem C2_witness :
    (list_directory_contents_sort [sampleFile, sampleDir]).Perm [sampleFile, sampleDir] ∧
    (list_directory_contents_sort [sampleFile, sampleDir]).Pairwise specListingOrder :=
  C2_listing_sorted [sampleFile, sampleDir]
